import Mathlib

/-!
Verification of the record ingestion and storage layer of the
Predictive Maintenance API (`src/main.py`).

The embedding models the four boundary operations of the service —
`predict` (`/predict`), `generate_data` (`/generate_data`),
`get_data` (`/data`) and `clear_data` (`/clear_data`) — over an explicit
record store.  Both storage backends (the MongoDB collection and the flat
JSON file `machine_data.json`) are abstracted as a list of records in
insertion order; the places where the two code paths genuinely differ
(per-record insertion inside the generation loop for MongoDB versus
buffering plus a single whole-file rewrite for the flat file, and the
`limit` semantics of `cursor.limit` versus the Python tail slice
`data[-limit:]`) are modelled separately and selected by a `useMongo`
boolean, exactly as the source branches on the module-level flag.

Randomness (`random.choice`, `random.uniform`, `np.random.choice` inside
the fallback `DummyModel`) is modelled by an oracle `Sampler` whose
contracts (`choice` returns a member of its list, `uniform a b` returns a
value in `[a, b]`) appear as hypotheses.  Python's `round` (banker's
rounding) is modelled exactly by `pyRoundInt` / `pyRound` over `ℚ`.
The opaque classifier (`model.predict`, wrapped in `try/except` by every
endpoint) is modelled as a per-call `Except String ℤ` result.
-/

/-- Values stored in a persisted record or returned in a response:
Python ints, floats (modelled as `ℚ`), strings and booleans. -/
inductive Val
  | i (z : ℤ)
  | f (q : ℚ)
  | s (str : String)
  | b (bo : Bool)
deriving DecidableEq

/-- A persisted record: a Python dict in insertion order (key/value pairs). -/
abbrev Record := List (String × Val)

/-- A response value: either a scalar or a list of records
(the `"data"` field of `/data`). -/
inductive RVal
  | v (x : Val)
  | recs (l : List Record)
deriving DecidableEq

/-- A JSON response body: a Python dict in insertion order. -/
abbrev Resp := List (String × RVal)

/-- The keys of a record, in dict insertion order. -/
def recKeys (r : Record) : List String := r.map Prod.fst

/-- The wire-format input of `/predict` (pydantic model `MachineData` in
`src/main.py`).  The wire field `Type` is named `machineType` here because
`Type` is reserved in Lean; all other field names are kept verbatim. -/
structure MachineData where
  machineType : ℤ
  Air_temperature_K : ℚ
  Process_temperature_K : ℚ
  Rotational_speed_rpm : ℚ
  Torque_Nm : ℚ
  Tool_wear_min : ℚ
deriving DecidableEq

/-- Oracle for one loop iteration's random calls: `random.choice`,
`random.uniform` and `np.random.choice` (used by `DummyModel`). -/
structure Sampler where
  choiceInt : List ℤ → ℤ
  uniform : ℚ → ℚ → ℚ
  npChoice : List ℤ → ℤ

/-- Contracts of the Python random primitives: `choice l` is a member of
`l` and `uniform a b` lies in `[a, b]`. -/
structure SamplerWF (s : Sampler) : Prop where
  choiceInt_mem : ∀ l : List ℤ, l ≠ [] → s.choiceInt l ∈ l
  npChoice_mem : ∀ l : List ℤ, l ≠ [] → s.npChoice l ∈ l
  uniform_mem : ∀ a b : ℚ, a ≤ b → a ≤ s.uniform a b ∧ s.uniform a b ≤ b

/-- A fresh sampler for each iteration of the generation loop (iteration
index `i` of `for _ in range(count)`), and for each `/predict` call. -/
structure Env where
  At : ℕ → Sampler

namespace DummyModel

/-- The fallback model of `src/main.py` (lines 57-62): when `model.pkl` is
absent, `predict` draws `np.random.choice([0, 1])` for the single row and
the endpoint takes `int(...)` of it. -/
def predict (s : Sampler) : ℤ := s.npChoice [0, 1]

end DummyModel

/-- Python `round(x)` with no `ndigits`: round to the nearest integer,
ties to the nearest even integer (banker's rounding). -/
def pyRoundInt (x : ℚ) : ℤ :=
  if x - ⌊x⌋ < 1/2 then ⌊x⌋
  else if 1/2 < x - ⌊x⌋ then ⌊x⌋ + 1
  else if ⌊x⌋ % 2 = 0 then ⌊x⌋ else ⌊x⌋ + 1

/-- Python `round(x, n)` for `n ≥ 1`: banker's rounding to `n` decimal
digits, modelled exactly over `ℚ`. -/
def pyRound (x : ℚ) (n : ℕ) : ℚ := (pyRoundInt (x * 10 ^ n) : ℚ) / 10 ^ n

/-- The record persisted by `/predict` (`src/main.py` lines 91-104): the
wire fields renamed to the storage column names, in dict order, with the
prediction appended last (`record["prediction"] = prediction`). -/
def mkStoredRecord (d : MachineData) (p : ℤ) : Record :=
  [("Type", Val.i d.machineType),
   ("Air temperature [K]", Val.f d.Air_temperature_K),
   ("Process temperature [K]", Val.f d.Process_temperature_K),
   ("Rotational speed [rpm]", Val.f d.Rotational_speed_rpm),
   ("Torque [Nm]", Val.f d.Torque_Nm),
   ("Tool wear [min]", Val.f d.Tool_wear_min),
   ("prediction", Val.i p)]

/-- The `/predict` endpoint (`src/main.py` lines 87-115).  `modelResult`
is the outcome of `int(model.predict(df)[0])`; on an exception the
`try/except` turns it into an HTTP 500 and nothing is persisted (the
classifier runs before any storage access).  On success the record is
appended to the store — `collection.insert_one` under MongoDB, or
read-append-rewrite of the JSON file, both of which append one record —
and the response is `{"prediction": p, "failure": bool(p)}`. -/
def predict (d : MachineData) (modelResult : Except String ℤ)
    (store : List Record) : List Record × Except String Resp :=
  match modelResult with
  | .error e => (store, .error e)
  | .ok p =>
      (store ++ [mkStoredRecord d p],
       .ok [("prediction", RVal.v (Val.i p)),
            ("failure", RVal.v (Val.b (p != 0)))])

/-- One iteration's sampled data dict of `/generate_data`
(`src/main.py` lines 122-137), before the prediction is attached.
`round(random.uniform(a, b), n)` keeps `n` decimals (a Python float,
`Val.f`); `round(random.uniform(a, b))` with no `ndigits` produces a
Python int (`Val.i`). -/
def sampleData (s : Sampler) : Record :=
  [("Type", Val.i (s.choiceInt [0, 1, 2])),
   ("Air temperature [K]", Val.f (pyRound (s.uniform 295 304) 1)),
   ("Process temperature [K]", Val.f (pyRound (s.uniform 305 313) 1)),
   ("Rotational speed [rpm]", Val.i (pyRoundInt (s.uniform 1000 2500))),
   ("Torque [Nm]", Val.f (pyRound (s.uniform (7/2) 77) 2)),
   ("Tool wear [min]", Val.i (pyRoundInt (s.uniform 0 253)))]

/-- A synthetic record as persisted by `/generate_data`: the sampled dict
with `data["prediction"] = prediction` appended. -/
def genRecord (s : Sampler) (p : ℤ) : Record :=
  sampleData s ++ [("prediction", Val.i p)]

/-- The loop of `/generate_data` (`src/main.py` lines 120-155).
`i` is the current iteration index, `n` the remaining iterations, `cur`
the current persisted store and `buf` the in-memory `generated_data`
buffer.  Under MongoDB (`useMongo = true`) each record is inserted
immediately (`collection.insert_one` inside the loop); under the flat
file the record is only appended to `buf`, and the file is rewritten once
after the loop (`all_data.extend(generated_data); save_data(all_data)`).
If the classifier raises at some iteration the loop aborts: the function
returns the store as it stands (partial inserts under MongoDB, untouched
under the flat file) together with the error. -/
def gdGo (useMongo : Bool) (env : Env) (model : ℕ → Except String ℤ)
    (i n : ℕ) (cur buf : List Record) : List Record × Option String :=
  match n with
  | 0 => (if useMongo then cur else cur ++ buf, none)
  | n' + 1 =>
      match model i with
      | .error e => (cur, some e)
      | .ok p =>
          if useMongo then
            gdGo useMongo env model (i + 1) n' (cur ++ [genRecord (env.At i) p]) buf
          else
            gdGo useMongo env model (i + 1) n' cur (buf ++ [genRecord (env.At i) p])

/-- The `/generate_data` endpoint (`src/main.py` lines 117-159).
`count.toNat` models `range(count)`, which is empty for `count ≤ 0`.
On success the response is
`{"message": f"Generated {count} data points", "count": count}`;
on a classifier exception the `try/except` yields an HTTP 500 and the
store keeps whatever the loop had persisted so far. -/
def generate_data (useMongo : Bool) (env : Env) (model : ℕ → Except String ℤ)
    (store : List Record) (count : ℤ) : List Record × Except String Resp :=
  let res := gdGo useMongo env model 0 count.toNat store []
  match res.2 with
  | none =>
      (res.1,
       .ok [("message", RVal.v (Val.s ("Generated " ++ toString count ++ " data points"))),
            ("count", RVal.v (Val.i count))])
  | some e => (res.1, .error e)

/-- The classifier actually active in this repository when `model.pkl` is
absent: the `DummyModel`, which never raises and draws its label from
`np.random.choice([0, 1])` using iteration `i`'s sampler. -/
def dummyModelAt (env : Env) (i : ℕ) : Except String ℤ :=
  Except.ok (DummyModel.predict (env.At i))

/-- Python slice `l[start:]` for an arbitrary integer `start`: a negative
index counts from the end (clamped at 0). -/
def pySliceFrom (l : List Record) (start : ℤ) : List Record :=
  if start < 0 then l.drop ((l.length : ℤ) + start).toNat
  else l.drop start.toNat

/-- The flat-file read path of `/data` (`src/main.py` lines 167-169):
`data[-limit:] if len(data) > limit else data`. -/
def flatFind (store : List Record) (limit : ℤ) : List Record :=
  if (store.length : ℤ) > limit then pySliceFrom store (-limit) else store

/-- The MongoDB read path of `/data` (`src/main.py` line 165):
`collection.find({}, {"_id": 0}).limit(limit)` in natural (insertion)
order; `cursor.limit(0)` means no limit, a negative limit behaves as its
absolute value. -/
def mongoFind (store : List Record) (limit : ℤ) : List Record :=
  if limit = 0 then store else store.take limit.natAbs

/-- The records returned by `/data` for the active backend. -/
def fetchedRecords (useMongo : Bool) (store : List Record) (limit : ℤ) :
    List Record :=
  if useMongo then mongoFind store limit else flatFind store limit

/-- The `/data` endpoint (`src/main.py` lines 161-173):
`{"data": data, "count": len(data)}`. -/
def get_data (useMongo : Bool) (store : List Record) (limit : ℤ) : Resp :=
  [("data", RVal.recs (fetchedRecords useMongo store limit)),
   ("count", RVal.v (Val.i (fetchedRecords useMongo store limit).length))]

/-- The `/clear_data` endpoint (`src/main.py` lines 175-188).  Both
branches delete every record and count them (`delete_many({})` /
`len(all_data)` followed by `save_data([])`); the response is only
`{"message": f"Deleted {deleted_count} data points"}`. The middle
component is the internal `deleted_count` variable. -/
def clear_data (useMongo : Bool) (store : List Record) :
    List Record × ℕ × Resp :=
  let deleted := store.length
  ([], deleted,
   [("message", RVal.v (Val.s ("Deleted " ++ toString deleted ++ " data points")))])

/-- The flat-file storage path (`DATA_FILE` in `src/main.py`). -/
def DATA_FILE : String := "machine_data.json"

/-- A file-system operation, at the granularity needed to state which
write discipline `save_data` uses. -/
inductive FileOp
  | openTruncate (path : String)
  | writeChunk (content : String)
  | closeFile
  | renameInto (src dst : String)
deriving DecidableEq

/-- Whether an operation is a rename (the "replace" step of a
write-new-then-replace discipline). -/
def FileOp.isRenameOp : FileOp → Bool
  | .renameInto _ _ => true
  | _ => false

/-- Whether a trace contains any rename step. -/
def hasRename (ops : List FileOp) : Bool := ops.any FileOp.isRenameOp

/-- The I/O trace of `save_data(data_list)` (`src/main.py` lines 83-85):
`with open(DATA_FILE, "w") as f: json.dump(data_list, f, indent=2)` —
it opens the destination file itself with mode `"w"`, which truncates it
in place, then streams the JSON into it and closes it.  No temporary file
is written and no rename is performed. -/
def save_data_ops (payload : String) : List FileOp :=
  [FileOp.openTruncate DATA_FILE, FileOp.writeChunk payload, FileOp.closeFile]

/-- The storage field names of a persisted record, in dict order. -/
def SevenKeys : List String :=
  ["Type", "Air temperature [K]", "Process temperature [K]",
   "Rotational speed [rpm]", "Torque [Nm]", "Tool wear [min]", "prediction"]

/-- Every record of `l` has exactly the six input fields plus
`prediction`, in the stable storage order. -/
def allSevenKeys (l : List Record) : Bool :=
  l.all (fun r => decide (recKeys r = SevenKeys))

/-- Every record of `l` carries a `prediction` field. -/
def allHavePrediction (l : List Record) : Bool :=
  l.all (fun r => decide ("prediction" ∈ recKeys r))

/-- `r` holds an integer under key `k` lying in `[lo, hi]`. -/
def intIn (r : Record) (k : String) (lo hi : ℤ) : Bool :=
  match List.lookup k r with
  | some (Val.i z) => decide (lo ≤ z) && decide (z ≤ hi)
  | _ => false

/-- `r` holds a float under key `k` lying in `[lo, hi]`. -/
def ratIn (r : Record) (k : String) (lo hi : ℚ) : Bool :=
  match List.lookup k r with
  | some (Val.f q) => decide (lo ≤ q) && decide (q ≤ hi)
  | _ => false

/-- All sampled fields of `r` lie in their documented ranges and its
prediction is an integer in `{0, 1}`. -/
def checkRanges (r : Record) : Bool :=
  intIn r "Type" 0 2 &&
  ratIn r "Air temperature [K]" 295 304 &&
  ratIn r "Process temperature [K]" 305 313 &&
  intIn r "Rotational speed [rpm]" 1000 2500 &&
  ratIn r "Torque [Nm]" (7/2) 77 &&
  intIn r "Tool wear [min]" 0 253 &&
  intIn r "prediction" 0 1

/-- Every record of `new` either was already in `base` or satisfies
`checkRanges`. -/
def rangesOk (base new : List Record) : Bool :=
  new.all (fun r => decide (r ∈ base) || checkRanges r)

/-- Stores reachable from an empty store through the service's own
operations (any backend, any classifier outcome, any sampled values). -/
inductive Reachable : List Record → Prop
  | init : Reachable []
  | predict_step (store : List Record) (d : MachineData) (m : Except String ℤ)
      (h : Reachable store) : Reachable (predict d m store).1
  | generate_step (b : Bool) (env : Env) (model : ℕ → Except String ℤ)
      (store : List Record) (count : ℤ) (h : Reachable store) :
      Reachable (generate_data b env model store count).1
  | clear_step (b : Bool) (store : List Record) (h : Reachable store) :
      Reachable (clear_data b store).1

/-- The spec's scenario input: machine type 1, air 298.0 K, process
308.0 K, 1500 rpm, 40.0 Nm, 100 min of tool wear. -/
def dataA : MachineData :=
  { machineType := 1, Air_temperature_K := 298, Process_temperature_K := 308,
    Rotational_speed_rpm := 1500, Torque_Nm := 40, Tool_wear_min := 100 }

/-- A concrete persisted record used by witnesses. -/
def recA : Record := mkStoredRecord dataA 1

/-- A deterministic sampler satisfying the random-primitive contracts:
`choice` returns the head of its list, `uniform a b` returns `a`. -/
def s0 : Sampler :=
  { choiceInt := fun l => l.headD 0,
    uniform := fun a _ => a,
    npChoice := fun l => l.headD 0 }

/-- A concrete environment handing `s0` to every iteration. -/
def env0 : Env := { At := fun _ => s0 }

/-- A second concrete persisted record used by witnesses. -/
def recB : Record := mkStoredRecord dataA 0

/-- A classifier that always succeeds with label 1 (a deterministic
instance of the opaque loaded model). -/
def okModel : ℕ → Except String ℤ := fun _ => Except.ok 1

/-- A classifier that raises on every call (a model whose `predict`
throws, exercising the endpoints' `try/except` paths). -/
def errModel : ℕ → Except String ℤ := fun _ => Except.error "classifier failure"

lemma s0_wf : SamplerWF s0 := by
  refine ⟨?_, ?_, ?_⟩
  · intro l hl; cases l with
    | nil => exact absurd rfl hl
    | cons a t => simp [s0]
  · intro l hl; cases l with
    | nil => exact absurd rfl hl
    | cons a t => simp [s0]
  · intro a b hab; exact ⟨le_refl a, hab⟩

lemma pyRoundInt_ge_floor (x : ℚ) : ⌊x⌋ ≤ pyRoundInt x := by
  unfold pyRoundInt
  split
  · exact le_refl _
  · split
    · omega
    · split <;> omega

lemma pyRoundInt_le_ceil (x : ℚ) : pyRoundInt x ≤ ⌈x⌉ := by
  unfold pyRoundInt
  split
  · exact Int.floor_le_ceil x
  · rename_i h1
    push_neg at h1
    have hx : (⌊x⌋ : ℚ) < x := by
      have : (0 : ℚ) < 1/2 := by norm_num
      have := lt_of_lt_of_le this h1
      linarith [Int.sub_one_lt_floor x]
    have hceil : ⌊x⌋ + 1 ≤ ⌈x⌉ := by
      have := Int.lt_ceil.mpr hx
      omega
    split
    · omega
    · split <;> omega

lemma pyRoundInt_bounds (A B : ℤ) (x : ℚ) (hA : (A : ℚ) ≤ x) (hB : x ≤ (B : ℚ)) :
    A ≤ pyRoundInt x ∧ pyRoundInt x ≤ B := by
  constructor
  · exact le_trans (Int.le_floor.mpr hA) (pyRoundInt_ge_floor x)
  · exact le_trans (pyRoundInt_le_ceil x) (Int.ceil_le.mpr hB)

lemma pyRound_bounds (A B : ℤ) (n : ℕ) (x : ℚ)
    (hA : (A : ℚ) ≤ x * 10 ^ n) (hB : x * 10 ^ n ≤ (B : ℚ)) :
    (A : ℚ) / 10 ^ n ≤ pyRound x n ∧ pyRound x n ≤ (B : ℚ) / 10 ^ n := by
  have hpos : (0 : ℚ) < 10 ^ n := by positivity
  obtain ⟨h1, h2⟩ := pyRoundInt_bounds A B (x * 10 ^ n) hA hB
  unfold pyRound
  constructor
  · exact (div_le_div_iff_of_pos_right hpos).mpr (by exact_mod_cast h1)
  · exact (div_le_div_iff_of_pos_right hpos).mpr (by exact_mod_cast h2)

lemma gdGo_mem (b : Bool) (env : Env) (model : ℕ → Except String ℤ) :
    ∀ (n i : ℕ) (cur buf : List Record) (r : Record),
      r ∈ (gdGo b env model i n cur buf).1 →
      r ∈ cur ∨ r ∈ buf ∨ ∃ j p, model j = Except.ok p ∧ r = genRecord (env.At j) p := by
  intro n
  induction n with
  | zero =>
      intro i cur buf r hr
      cases b <;> simp only [gdGo] at hr
      · rcases List.mem_append.mp hr with h | h
        · exact Or.inl h
        · exact Or.inr (Or.inl h)
      · exact Or.inl hr
  | succ n ih =>
      intro i cur buf r hr
      simp only [gdGo] at hr
      cases hm : model i with
      | error e =>
          rw [hm] at hr
          exact Or.inl hr
      | ok p =>
          rw [hm] at hr
          cases b with
          | false =>
              simp only [Bool.false_eq_true, if_neg] at hr
              rcases ih (i + 1) cur (buf ++ [genRecord (env.At i) p]) r hr with h | h | h
              · exact Or.inl h
              · rcases List.mem_append.mp h with h' | h'
                · exact Or.inr (Or.inl h')
                · refine Or.inr (Or.inr ⟨i, p, hm, ?_⟩)
                  simpa using h'
              · exact Or.inr (Or.inr h)
          | true =>
              simp only [if_pos] at hr
              rcases ih (i + 1) (cur ++ [genRecord (env.At i) p]) buf r hr with h | h | h
              · rcases List.mem_append.mp h with h' | h'
                · exact Or.inl h'
                · refine Or.inr (Or.inr ⟨i, p, hm, ?_⟩)
                  simpa using h'
              · exact Or.inr (Or.inl h)
              · exact Or.inr (Or.inr h)

lemma gdGo_ok_spec (b : Bool) (env : Env) (model : ℕ → Except String ℤ)
    (hm : ∀ j, ∃ p, model j = Except.ok p) :
    ∀ (n i : ℕ) (cur buf : List Record),
      (gdGo b env model i n cur buf).2 = none ∧
      (gdGo b env model i n cur buf).1.length
        = (if b then cur.length else cur.length + buf.length) + n := by
  intro n
  induction n with
  | zero =>
      intro i cur buf
      cases b <;> simp [gdGo]
  | succ n ih =>
      intro i cur buf
      obtain ⟨p, hp⟩ := hm i
      cases b with
      | false =>
          obtain ⟨h1, h2⟩ := ih (i + 1) cur (buf ++ [genRecord (env.At i) p])
          simp only [List.length_append, List.length_cons, List.length_nil,
            Bool.false_eq_true, if_false] at h2 ⊢
          constructor <;> simp only [gdGo, hp, Bool.false_eq_true, if_false]
          · exact h1
          · omega
      | true =>
          obtain ⟨h1, h2⟩ := ih (i + 1) (cur ++ [genRecord (env.At i) p]) buf
          simp only [List.length_append, List.length_cons, List.length_nil,
            if_true] at h2 ⊢
          constructor <;> simp only [gdGo, hp, if_true]
          · exact h1
          · omega

lemma gdGo_flat_err (env : Env) (model : ℕ → Except String ℤ) :
    ∀ (n i : ℕ) (cur buf : List Record) (e : String),
      (gdGo false env model i n cur buf).2 = some e →
      (gdGo false env model i n cur buf).1 = cur := by
  intro n
  induction n with
  | zero =>
      intro i cur buf e h
      simp [gdGo] at h
  | succ n ih =>
      intro i cur buf e h
      cases hm : model i with
      | error e' =>
          simp only [gdGo, hm]
      | ok p =>
          simp only [gdGo, hm, Bool.false_eq_true, if_neg] at h ⊢
          exact ih (i + 1) cur (buf ++ [genRecord (env.At i) p]) e h

lemma generate_data_fst (b : Bool) (env : Env) (model : ℕ → Except String ℤ)
    (store : List Record) (count : ℤ) :
    (generate_data b env model store count).1
      = (gdGo b env model 0 count.toNat store []).1 := by
  unfold generate_data
  cases h : (gdGo b env model 0 count.toNat store []).2 <;> simp [h]

lemma recKeys_mkStoredRecord (d : MachineData) (p : ℤ) :
    recKeys (mkStoredRecord d p) = SevenKeys := rfl

lemma recKeys_genRecord (s : Sampler) (p : ℤ) :
    recKeys (genRecord s p) = SevenKeys := rfl

lemma reachable_keys (store : List Record) (h : Reachable store) :
    ∀ r ∈ store, recKeys r = SevenKeys := by
  induction h with
  | init => intro r hr; simp at hr
  | predict_step store d m h ih =>
      intro r hr
      cases m with
      | error e => exact ih r hr
      | ok p =>
          simp only [predict] at hr
          rcases List.mem_append.mp hr with h' | h'
          · exact ih r h'
          · simp only [List.mem_singleton] at h'
            rw [h']
            exact recKeys_mkStoredRecord d p
  | generate_step b env model store count h ih =>
      intro r hr
      rw [generate_data_fst] at hr
      rcases gdGo_mem b env model count.toNat 0 store [] r hr with h' | h' | ⟨j, p, _, hgen⟩
      · exact ih r h'
      · simp at h'
      · rw [hgen]
        exact recKeys_genRecord (env.At j) p
  | clear_step b store h ih =>
      intro r hr
      simp [clear_data] at hr

lemma fetchedRecords_subset (b : Bool) (store : List Record) (limit : ℤ) :
    ∀ r ∈ fetchedRecords b store limit, r ∈ store := by
  intro r hr
  unfold fetchedRecords at hr
  cases b with
  | true =>
      simp only [if_true] at hr
      unfold mongoFind at hr
      by_cases h0 : limit = 0
      · rw [if_pos h0] at hr; exact hr
      · rw [if_neg h0] at hr; exact List.take_subset _ _ hr
  | false =>
      simp only [Bool.false_eq_true, if_false] at hr
      unfold flatFind at hr
      by_cases hlen : (store.length : ℤ) > limit
      · rw [if_pos hlen] at hr
        unfold pySliceFrom at hr
        by_cases hneg : -limit < 0
        · rw [if_pos hneg] at hr; exact List.drop_subset _ _ hr
        · rw [if_neg hneg] at hr; exact List.drop_subset _ _ hr
      · rw [if_neg hlen] at hr; exact hr

lemma intIn_of (r : Record) (k : String) (lo hi z : ℤ)
    (h : List.lookup k r = some (Val.i z)) (h1 : lo ≤ z) (h2 : z ≤ hi) :
    intIn r k lo hi = true := by
  unfold intIn
  rw [h]
  simp [h1, h2]

lemma ratIn_of (r : Record) (k : String) (lo hi q : ℚ)
    (h : List.lookup k r = some (Val.f q)) (h1 : lo ≤ q) (h2 : q ≤ hi) :
    ratIn r k lo hi = true := by
  unfold ratIn
  rw [h]
  simp [h1, h2]

lemma checkRanges_genRecord (s : Sampler) (p : ℤ)
    (hs : SamplerWF s) (hp : p = 0 ∨ p = 1) :
    checkRanges (genRecord s p) = true := by
  have htype : s.choiceInt [0, 1, 2] ∈ ([0, 1, 2] : List ℤ) :=
    hs.choiceInt_mem [0, 1, 2] (by simp)
  have hair := hs.uniform_mem 295 304 (by norm_num)
  have hproc := hs.uniform_mem 305 313 (by norm_num)
  have hrot := hs.uniform_mem 1000 2500 (by norm_num)
  have htorque := hs.uniform_mem (7/2) 77 (by norm_num)
  have hwear := hs.uniform_mem 0 253 (by norm_num)
  have bair := pyRound_bounds 2950 3040 1 (s.uniform 295 304)
    (by push_cast; nlinarith [hair.1]) (by push_cast; nlinarith [hair.2])
  have bproc := pyRound_bounds 3050 3130 1 (s.uniform 305 313)
    (by push_cast; nlinarith [hproc.1]) (by push_cast; nlinarith [hproc.2])
  have brot := pyRoundInt_bounds 1000 2500 (s.uniform 1000 2500)
    (by exact_mod_cast hrot.1) (by exact_mod_cast hrot.2)
  have btorque := pyRound_bounds 350 7700 2 (s.uniform (7/2) 77)
    (by push_cast; nlinarith [htorque.1]) (by push_cast; nlinarith [htorque.2])
  have bwear := pyRoundInt_bounds 0 253 (s.uniform 0 253)
    (by exact_mod_cast hwear.1) (by exact_mod_cast hwear.2)
  have h02 : 0 ≤ s.choiceInt [0, 1, 2] ∧ s.choiceInt [0, 1, 2] ≤ 2 := by
    simp only [List.mem_cons, List.mem_singleton, List.not_mem_nil, or_false] at htype
    rcases htype with h | h | h <;> simp [h]
  have e1 : intIn (genRecord s p) "Type" 0 2 = true :=
    intIn_of (genRecord s p) "Type" 0 2 (s.choiceInt [0, 1, 2]) rfl h02.1 h02.2
  have e2 : ratIn (genRecord s p) "Air temperature [K]" 295 304 = true := by
    refine ratIn_of (genRecord s p) _ 295 304 (pyRound (s.uniform 295 304) 1) rfl ?_ ?_
    · have := bair.1; norm_num at this ⊢; linarith
    · have := bair.2; norm_num at this ⊢; linarith
  have e3 : ratIn (genRecord s p) "Process temperature [K]" 305 313 = true := by
    refine ratIn_of (genRecord s p) _ 305 313 (pyRound (s.uniform 305 313) 1) rfl ?_ ?_
    · have := bproc.1; norm_num at this ⊢; linarith
    · have := bproc.2; norm_num at this ⊢; linarith
  have e4 : intIn (genRecord s p) "Rotational speed [rpm]" 1000 2500 = true :=
    intIn_of (genRecord s p) _ 1000 2500 (pyRoundInt (s.uniform 1000 2500)) rfl
      brot.1 brot.2
  have e5 : ratIn (genRecord s p) "Torque [Nm]" (7/2) 77 = true := by
    refine ratIn_of (genRecord s p) _ (7/2) 77 (pyRound (s.uniform (7/2) 77) 2) rfl ?_ ?_
    · have := btorque.1; norm_num at this ⊢; linarith
    · have := btorque.2; norm_num at this ⊢; linarith
  have e6 : intIn (genRecord s p) "Tool wear [min]" 0 253 = true :=
    intIn_of (genRecord s p) _ 0 253 (pyRoundInt (s.uniform 0 253)) rfl
      bwear.1 bwear.2
  have e7 : intIn (genRecord s p) "prediction" 0 1 = true :=
    intIn_of (genRecord s p) _ 0 1 p rfl (by omega) (by omega)
  unfold checkRanges
  rw [e1, e2, e3, e4, e5, e6, e7]
  rfl

lemma flatFind_drop (store : List Record) (limit : ℤ) (h : 1 ≤ limit) :
    flatFind store limit = store.drop (store.length - limit.toNat) := by
  unfold flatFind pySliceFrom
  by_cases hlen : (store.length : ℤ) > limit
  · rw [if_pos hlen, if_pos (by omega : -limit < 0)]
    congr 1
    omega
  · rw [if_neg hlen]
    have : store.length - limit.toNat = 0 := by omega
    rw [this, List.drop_zero]

lemma flatFind_append_one (l : List Record) (r : Record) :
    flatFind (l ++ [r]) 1 = [r] := by
  rw [flatFind_drop (l ++ [r]) 1 le_rfl]
  have : (l ++ [r]).length - (1 : ℤ).toNat = l.length := by
    simp [List.length_append]
  rw [this, List.drop_left]

/-- C1: for every well-formed wire input, a record submitted via `/predict`
is persisted with each wire field mapped to exactly one storage field
(`Type` ↦ `Type`, `Air_temperature_K` ↦ `Air temperature [K]`,
`Process_temperature_K` ↦ `Process temperature [K]`,
`Rotational_speed_rpm` ↦ `Rotational speed [rpm]`, `Torque_Nm` ↦
`Torque [Nm]`, `Tool_wear_min` ↦ `Tool wear [min]`), and immediately
retrieving it via `/data` with `limit = 1` (flat-file variant) returns
exactly that record with the submitted values and a `prediction`
in `{0, 1}`. -/
theorem C1_round_trip (store : List Record) (d : MachineData) (s : Sampler)
    (hs : SamplerWF s) :
    (DummyModel.predict s = 0 ∨ DummyModel.predict s = 1) ∧
    (predict d (Except.ok (DummyModel.predict s)) store).1
      = store ++ [mkStoredRecord d (DummyModel.predict s)] ∧
    flatFind ((predict d (Except.ok (DummyModel.predict s)) store).1) 1
      = [mkStoredRecord d (DummyModel.predict s)] ∧
    List.lookup "Type" (mkStoredRecord d (DummyModel.predict s))
      = some (Val.i d.machineType) ∧
    List.lookup "Air temperature [K]" (mkStoredRecord d (DummyModel.predict s))
      = some (Val.f d.Air_temperature_K) ∧
    List.lookup "Process temperature [K]" (mkStoredRecord d (DummyModel.predict s))
      = some (Val.f d.Process_temperature_K) ∧
    List.lookup "Rotational speed [rpm]" (mkStoredRecord d (DummyModel.predict s))
      = some (Val.f d.Rotational_speed_rpm) ∧
    List.lookup "Torque [Nm]" (mkStoredRecord d (DummyModel.predict s))
      = some (Val.f d.Torque_Nm) ∧
    List.lookup "Tool wear [min]" (mkStoredRecord d (DummyModel.predict s))
      = some (Val.f d.Tool_wear_min) ∧
    List.lookup "prediction" (mkStoredRecord d (DummyModel.predict s))
      = some (Val.i (DummyModel.predict s)) := by
  have hp : DummyModel.predict s = 0 ∨ DummyModel.predict s = 1 := by
    have := hs.npChoice_mem [0, 1] (by simp)
    simpa [DummyModel.predict] using this
  refine ⟨hp, rfl, ?_, rfl, rfl, rfl, rfl, rfl, rfl, rfl⟩
  show flatFind (store ++ [mkStoredRecord d (DummyModel.predict s)]) 1 = _
  exact flatFind_append_one store (mkStoredRecord d (DummyModel.predict s))

theorem C1_round_trip_witness :
    SamplerWF s0 ∧
    ((DummyModel.predict s0 = 0 ∨ DummyModel.predict s0 = 1) ∧
     (predict dataA (Except.ok (DummyModel.predict s0)) []).1
       = [] ++ [mkStoredRecord dataA (DummyModel.predict s0)] ∧
     flatFind ((predict dataA (Except.ok (DummyModel.predict s0)) []).1) 1
       = [mkStoredRecord dataA (DummyModel.predict s0)] ∧
     List.lookup "Type" (mkStoredRecord dataA (DummyModel.predict s0))
       = some (Val.i dataA.machineType) ∧
     List.lookup "Air temperature [K]" (mkStoredRecord dataA (DummyModel.predict s0))
       = some (Val.f dataA.Air_temperature_K) ∧
     List.lookup "Process temperature [K]" (mkStoredRecord dataA (DummyModel.predict s0))
       = some (Val.f dataA.Process_temperature_K) ∧
     List.lookup "Rotational speed [rpm]" (mkStoredRecord dataA (DummyModel.predict s0))
       = some (Val.f dataA.Rotational_speed_rpm) ∧
     List.lookup "Torque [Nm]" (mkStoredRecord dataA (DummyModel.predict s0))
       = some (Val.f dataA.Torque_Nm) ∧
     List.lookup "Tool wear [min]" (mkStoredRecord dataA (DummyModel.predict s0))
       = some (Val.f dataA.Tool_wear_min) ∧
     List.lookup "prediction" (mkStoredRecord dataA (DummyModel.predict s0))
       = some (Val.i (DummyModel.predict s0))) :=
  ⟨s0_wf, C1_round_trip [] dataA s0 s0_wf⟩

/-- C2: every record in a store reachable through the service's own
operations, and hence every record returned by `/data` under either
backend, has exactly the six input fields plus `prediction` as its keys,
and no record is ever persisted without its `prediction` field. -/
theorem C2_shape_invariant (b : Bool) (store : List Record) (limit : ℤ)
    (h : Reachable store) :
    allSevenKeys store = true ∧
    allSevenKeys (fetchedRecords b store limit) = true ∧
    allHavePrediction store = true := by
  have hkeys := reachable_keys store h
  refine ⟨?_, ?_, ?_⟩
  · rw [allSevenKeys, List.all_eq_true]
    intro r hr
    exact decide_eq_true_iff.mpr (hkeys r hr)
  · rw [allSevenKeys, List.all_eq_true]
    intro r hr
    exact decide_eq_true_iff.mpr (hkeys r (fetchedRecords_subset b store limit r hr))
  · rw [allHavePrediction, List.all_eq_true]
    intro r hr
    refine decide_eq_true_iff.mpr ?_
    rw [hkeys r hr]
    simp [SevenKeys]

theorem C2_shape_invariant_witness :
    allSevenKeys ((predict dataA (Except.ok 1) []).1) = true ∧
    allSevenKeys
      (fetchedRecords false ((predict dataA (Except.ok 1) []).1) 10000) = true ∧
    allHavePrediction ((predict dataA (Except.ok 1) []).1) = true :=
  C2_shape_invariant false ((predict dataA (Except.ok 1) []).1) 10000
    (Reachable.predict_step [] dataA (Except.ok 1) Reachable.init)

/-- C3 counterexample: `/clear_data` on a one-record store responds with
only a message string; its response carries no `count_deleted` integer
field (nor any key other than `message`), refuting the claimed response
shape `{count_deleted: integer}`. -/
theorem C3_counterexample :
    (clear_data false [recA]).2.2
      = [("message", RVal.v (Val.s "Deleted 1 data points"))] ∧
    List.lookup "count_deleted" (clear_data false [recA]).2.2 = none := by
  exact ⟨rfl, rfl⟩

/-- C3 amended: `/clear_data` deletes all records under either backend and
is idempotent — the internally computed deleted count is the store's size
(hence `≥ 0`) the first time and exactly `0` on an immediately repeated
call, with no error raised — but the count reaches the response only
interpolated into the `message` string; the response has no
`count_deleted` integer field. -/
theorem C3_clear_idempotent (b : Bool) (store : List Record) :
    (clear_data b store).1 = [] ∧
    (clear_data b store).2.1 = store.length ∧
    (clear_data b (clear_data b store).1).2.1 = 0 ∧
    (clear_data b store).2.2
      = [("message",
          RVal.v (Val.s ("Deleted " ++ toString store.length ++ " data points")))] ∧
    List.lookup "count_deleted" (clear_data b store).2.2 = none :=
  ⟨rfl, rfl, rfl, rfl, rfl⟩

/-- C4 counterexample: for the spec's scenario input, `/predict` persists
the full seven-field record but responds with only
`{"prediction": 1, "failure": true}` — the response holds none of the six
stored input fields, refuting the claim that it returns the persisted
record. -/
theorem C4_counterexample :
    predict dataA (Except.ok 1) []
      = ([mkStoredRecord dataA 1],
         Except.ok [("prediction", RVal.v (Val.i 1)),
                    ("failure", RVal.v (Val.b true))]) ∧
    List.lookup "Type"
      [("prediction", RVal.v (Val.i 1)), ("failure", RVal.v (Val.b true))] = none ∧
    List.lookup "Air temperature [K]"
      [("prediction", RVal.v (Val.i 1)), ("failure", RVal.v (Val.b true))] = none ∧
    List.lookup "Type" (mkStoredRecord dataA 1) = some (Val.i 1) := by
  refine ⟨?_, rfl, rfl, rfl⟩
  rfl

/-- C4 amended: `/predict` persists the full labeled record but returns a
reduced summary `{"prediction": p, "failure": bool(p)}`; the `prediction`
in the response equals the `prediction` field of the record it persisted
(same classifier call, not recomputed), and the six stored input fields
are absent from the response. -/
theorem C4_reduced_response (d : MachineData) (p : ℤ) (store : List Record) :
    predict d (Except.ok p) store
      = (store ++ [mkStoredRecord d p],
         Except.ok [("prediction", RVal.v (Val.i p)),
                    ("failure", RVal.v (Val.b (p != 0)))]) ∧
    List.lookup "prediction" (mkStoredRecord d p) = some (Val.i p) ∧
    List.lookup "Type"
      [("prediction", RVal.v (Val.i p)),
       ("failure", RVal.v (Val.b (p != 0)))] = none :=
  ⟨rfl, rfl, rfl⟩

/-- C5: for every non-negative `N` and under either backend,
`/generate_data` with `count = N` and a classifier that succeeds on every
call grows the store by exactly `N` records from any baseline and
responds with `count` equal to `N`; `N = 0` is legal and leaves the store
unchanged. -/
theorem C5_bulk_count (b : Bool) (env : Env) (model : ℕ → Except String ℤ)
    (store : List Record) (N : ℤ) (hN : 0 ≤ N)
    (hm : ∀ j, ∃ p, model j = Except.ok p) :
    ((generate_data b env model store N).1.length : ℤ) = store.length + N ∧
    (generate_data b env model store N).2
      = Except.ok
          [("message", RVal.v (Val.s ("Generated " ++ toString N ++ " data points"))),
           ("count", RVal.v (Val.i N))] ∧
    (N = 0 → (generate_data b env model store N).1 = store) := by
  obtain ⟨h1, h2⟩ := gdGo_ok_spec b env model hm N.toNat 0 store []
  refine ⟨?_, ?_, ?_⟩
  · rw [generate_data_fst, h2]
    cases b <;> simp <;> omega
  · simp only [generate_data, h1]
  · intro h0
    subst h0
    rw [generate_data_fst]
    cases b <;> simp [gdGo]

theorem C5_bulk_count_witness :
    (0 : ℤ) ≤ 2 ∧
    (((generate_data false env0 okModel [] 2).1.length : ℤ)
        = (([] : List Record).length : ℤ) + 2 ∧
     (generate_data false env0 okModel [] 2).2
       = Except.ok
           [("message",
             RVal.v (Val.s ("Generated " ++ toString (2 : ℤ) ++ " data points"))),
            ("count", RVal.v (Val.i 2))] ∧
     ((2 : ℤ) = 0 → (generate_data false env0 okModel [] 2).1 = [])) :=
  ⟨by decide, C5_bulk_count false env0 okModel [] 2 (by decide) (fun _ => ⟨1, rfl⟩)⟩

/-- C6: for every store and every `limit` in the interface's declared
domain (a positive integer), the flat-file read path of `/data` returns
exactly the last `limit` records in insertion order — a suffix of the
store of length at most `limit`, and the whole store whenever it has at
most `limit` records. -/
theorem C6_flat_find_tail (store : List Record) (limit : ℤ) (h : 1 ≤ limit) :
    flatFind store limit = store.drop (store.length - limit.toNat) ∧
    (flatFind store limit).length ≤ limit.toNat ∧
    List.IsSuffix (flatFind store limit) store ∧
    (store.length ≤ limit.toNat → flatFind store limit = store) := by
  have hd := flatFind_drop store limit h
  refine ⟨hd, ?_, ?_, ?_⟩
  · rw [hd, List.length_drop]
    omega
  · rw [hd]
    exact List.drop_suffix _ _
  · intro hle
    rw [hd]
    have h0 : store.length - limit.toNat = 0 := by omega
    rw [h0, List.drop_zero]

theorem C6_flat_find_tail_witness :
    (1 : ℤ) ≤ 2 ∧
    (flatFind [recA, recB, recA] 2
        = [recA, recB, recA].drop ([recA, recB, recA].length - (2 : ℤ).toNat) ∧
     (flatFind [recA, recB, recA] 2).length ≤ (2 : ℤ).toNat ∧
     List.IsSuffix (flatFind [recA, recB, recA] 2) [recA, recB, recA] ∧
     ([recA, recB, recA].length ≤ (2 : ℤ).toNat →
        flatFind [recA, recB, recA] 2 = [recA, recB, recA])) :=
  ⟨by decide, C6_flat_find_tail [recA, recB, recA] 2 (by decide)⟩

/-- C7: with the repository's active fallback classifier (`DummyModel`)
and well-formed random primitives, every record added to the store by
`/generate_data` (under either backend, for any `count`) has each sampled
field within its documented range — `Type` in `{0, 1, 2}`, air
temperature in `[295, 304]`, process temperature in `[305, 313]`,
rotational speed in `[1000, 2500]`, torque in `[3.5, 77]`, tool wear in
`[0, 253]` — and an integer `prediction` in `{0, 1}`. -/
theorem C7_synthetic_ranges (b : Bool) (env : Env) (store : List Record)
    (count : ℤ) (henv : ∀ i, SamplerWF (env.At i)) :
    rangesOk store (generate_data b env (dummyModelAt env) store count).1 = true := by
  rw [rangesOk, List.all_eq_true]
  intro r hr
  rw [generate_data_fst] at hr
  rcases gdGo_mem b env (dummyModelAt env) count.toNat 0 store [] r hr with
    h | h | ⟨j, p, hok, hgen⟩
  · simp [h]
  · simp at h
  · have hq : DummyModel.predict (env.At j) = p := by
      simpa [dummyModelAt] using hok
    have hp : p = 0 ∨ p = 1 := by
      have hmem := (henv j).npChoice_mem [0, 1] (by simp)
      rw [← hq]
      simpa [DummyModel.predict] using hmem
    rw [hgen]
    have hc := checkRanges_genRecord (env.At j) p (henv j) hp
    simp [hc]

theorem C7_synthetic_ranges_witness :
    rangesOk [] (generate_data false env0 (dummyModelAt env0) [] 3).1 = true :=
  C7_synthetic_ranges false env0 [] 3 (fun _ => s0_wf)

/-- C8 counterexample: `save_data` (`src/main.py` lines 83-85) opens the
destination file itself in truncating write mode and streams the JSON
into it; its I/O trace contains no rename of a freshly written temporary
file, refuting the claimed write-new-then-replace discipline. -/
theorem C8_counterexample :
    hasRename (save_data_ops "[]") = false ∧
    (save_data_ops "[]").head? = some (FileOp.openTruncate DATA_FILE) :=
  ⟨rfl, rfl⟩

/-- C8 amended: when `/generate_data` fails mid-batch under the flat-file
variant (the classifier raises at some iteration), the stored file is
left exactly unchanged, because generated records are only buffered in
memory and the single whole-file write happens after the loop; the write
itself, however, truncates the data file in place rather than using
write-new-then-replace. -/
theorem C8_flat_mid_batch_failure (env : Env) (model : ℕ → Except String ℤ)
    (store : List Record) (count : ℤ) (e : String)
    (h : (generate_data false env model store count).2 = Except.error e) :
    (generate_data false env model store count).1 = store := by
  rw [generate_data_fst]
  cases hc : (gdGo false env model 0 count.toNat store []).2 with
  | none =>
      exfalso
      simp only [generate_data, hc] at h
      exact Except.noConfusion h
  | some e' =>
      exact gdGo_flat_err env model count.toNat 0 store [] e' hc

theorem C8_flat_mid_batch_failure_witness :
    (generate_data false env0 errModel [recA] 2).2
      = Except.error "classifier failure" ∧
    (generate_data false env0 errModel [recA] 2).1 = [recA] :=
  ⟨rfl, C8_flat_mid_batch_failure env0 errModel [recA] 2 "classifier failure" rfl⟩

/-- C9: calling `/data` with `limit = 0` on a non-empty flat-file store
returns every record in the store (the guard `len(data) > 0` holds and
the slice `data[-0:]` is the whole list), not zero records, so the
"at most `limit` records" bound fails at `limit = 0`. -/
theorem C9_limit_zero_returns_all (store : List Record) (h : store ≠ []) :
    get_data false store 0
      = [("data", RVal.recs store), ("count", RVal.v (Val.i store.length))] ∧
    flatFind store 0 = store ∧
    (flatFind store 0).length ≠ 0 := by
  have hf : flatFind store 0 = store := by
    unfold flatFind pySliceFrom
    by_cases hl : (store.length : ℤ) > 0
    · rw [if_pos hl, if_neg (by norm_num : ¬(-(0 : ℤ) < 0))]
      simp
    · rw [if_neg hl]
  refine ⟨?_, hf, ?_⟩
  · simp only [get_data, fetchedRecords, Bool.false_eq_true, if_false, hf]
  · rw [hf]
    intro hc
    exact h (List.length_eq_zero.mp hc)

theorem C9_limit_zero_returns_all_witness :
    [recA] ≠ ([] : List Record) ∧
    (get_data false [recA] 0
        = [("data", RVal.recs [recA]), ("count", RVal.v (Val.i [recA].length))] ∧
     flatFind [recA] 0 = [recA] ∧
     (flatFind [recA] 0).length ≠ 0) :=
  ⟨by decide, C9_limit_zero_returns_all [recA] (by decide)⟩

/-- C10: calling `/generate_data` with a negative `count` raises no error
and performs no writes — `range(count)` is empty, the store is returned
unchanged under either backend — and the response reports the negative
count verbatim in both its `message` and `count` fields instead of
rejecting the input. -/
theorem C10_negative_count (b : Bool) (env : Env) (model : ℕ → Except String ℤ)
    (store : List Record) (count : ℤ) (h : count < 0) :
    generate_data b env model store count
      = (store,
         Except.ok
           [("message",
             RVal.v (Val.s ("Generated " ++ toString count ++ " data points"))),
            ("count", RVal.v (Val.i count))]) := by
  have h0 : count.toNat = 0 := Int.toNat_of_nonpos h.le
  simp only [generate_data, h0, gdGo, List.append_nil, ite_self]

theorem C10_negative_count_witness :
    (-3 : ℤ) < 0 ∧
    generate_data false env0 okModel [recA] (-3)
      = ([recA],
         Except.ok
           [("message",
             RVal.v (Val.s ("Generated " ++ toString (-3 : ℤ) ++ " data points"))),
            ("count", RVal.v (Val.i (-3)))]) :=
  ⟨by decide, C10_negative_count false env0 okModel [recA] (-3) (by decide)⟩
